import Mathlib

/-!
Verification of the episode-capture HTTP server (`server.py`).

The server accepts `POST /save` with a JSON body, writes the parsed value as
indented JSON to `episodes/episode_<unix-seconds>.json`, and answers with a
JSON status object.  Everything the handler does is embedded shallowly below:

* text is modelled as `List Char` (`Str`), raw request bodies as `List Nat`
  (byte values);
* the CPython library calls the handler makes (`bytes.decode("utf-8")`,
  `json.loads`, `json.dumps` / `json.dump(..., indent=2)`, `int(str)`) are
  given executable models faithful to their documented behaviour, with one
  deliberate scope restriction: JSON *number* literals are modelled as
  integers only.  Floating-point literals (fractions, exponents,
  `NaN`/`Infinity`) have IEEE-754 semantics and are outside the embedding;
  every theorem below quantifies over the float-free JSON fragment.
  Likewise `\uXXXX` escapes denoting lone UTF-16 surrogates produce
  non-scalar-value Python strings which `Char` cannot represent; the model
  parser rejects them (the serialiser never emits them);
* the filesystem is an association list from file path to file text, the
  clock (`int(time.time())`) is an explicit `now` field of the world, and a
  possible I/O failure of the file write is a boolean `writeFails` flag.
-/

/-- Python text, one `Char` per Unicode scalar value. -/
abbrev Str := List Char

/-- Left brace character, U+007B. -/
def lbrace : Char := Char.ofNat 123

/-- Right brace character, U+007D. -/
def rbrace : Char := Char.ofNat 125

/-- JSON whitespace as skipped by CPython `json` (space, tab, LF, CR). -/
def isWsC (c : Char) : Bool :=
  c.toNat = 32 || c.toNat = 9 || c.toNat = 10 || c.toNat = 13

/-- ASCII decimal digit test. -/
def isDigitC (c : Char) : Bool :=
  48 ≤ c.toNat && c.toNat ≤ 57

/-- The JSON values the server round-trips: CPython `json.loads` output
restricted to the float-free fragment (see the module comment).  Object
members keep their textual order, matching the insertion order of the
`dict` built by `json.loads` and replayed by `json.dump`. -/
inductive Json where
  | null : Json
  | bool : Bool → Json
  | num : Int → Json
  | str : Str → Json
  | arr : List Json → Json
  | obj : List (Str × Json) → Json

/-- Decimal digit character for `n < 10` (ASCII `0`–`9`). -/
def digitChar (n : Nat) : Char := Char.ofNat (48 + n)

/-- Decimal digits of a natural number, most significant first, no leading
zeros (the digits CPython prints for a non-negative `int`). -/
def natDigits (n : Nat) : Str :=
  if n < 10 then [digitChar n]
  else natDigits (n / 10) ++ [digitChar (n % 10)]
decreasing_by exact Nat.div_lt_self (by omega) (by omega)

/-- Text CPython prints for an `int` (`str(i)` / its JSON serialisation). -/
def intChars (i : Int) : Str :=
  if i < 0 then '-' :: natDigits i.natAbs else natDigits i.toNat

/-- Lowercase hexadecimal digit character for `n < 16`. -/
def hexDigit (n : Nat) : Char :=
  if n < 10 then Char.ofNat (48 + n) else Char.ofNat (87 + n)

/-- Four lowercase hex digits of `n < 0x10000`, as in CPython `\uXXXX`
escapes. -/
def hex4 (n : Nat) : Str :=
  [hexDigit (n / 4096 % 16), hexDigit (n / 256 % 16),
   hexDigit (n / 16 % 16), hexDigit (n % 16)]

/-- Serialisation of one character inside a JSON string, following CPython
`json.encoder.py_encode_basestring_ascii` (the `ensure_ascii=True` default
used by `json.dump`/`json.dumps` in the server): short escapes for the named
control characters, `\uXXXX` for the other control characters and for all
non-ASCII characters, a UTF-16 surrogate pair of escapes beyond U+FFFF. -/
def encodeChar (c : Char) : Str :=
  if c.toNat = 34 then ['\\', '"']
  else if c.toNat = 92 then ['\\', '\\']
  else if c.toNat = 8 then ['\\', 'b']
  else if c.toNat = 12 then ['\\', 'f']
  else if c.toNat = 10 then ['\\', 'n']
  else if c.toNat = 13 then ['\\', 'r']
  else if c.toNat = 9 then ['\\', 't']
  else if c.toNat < 32 then '\\' :: 'u' :: hex4 c.toNat
  else if c.toNat < 127 then [c]
  else if c.toNat < 65536 then '\\' :: 'u' :: hex4 c.toNat
  else
    '\\' :: 'u' :: hex4 (55296 + (c.toNat - 65536) / 1024) ++
    '\\' :: 'u' :: hex4 (56320 + (c.toNat - 65536) % 1024)

/-- Serialisation of the characters of a JSON string (without the quotes). -/
def encStr : Str → Str
  | [] => []
  | c :: cs => encodeChar c ++ encStr cs

/-- Serialisation of a JSON string, quotes included. -/
def jstr (s : Str) : Str := '"' :: (encStr s ++ ['"'])

/-- Newline plus the 2-space-per-level indentation `json.dump(..., indent=2)`
puts before an item at nesting level `lvl`. -/
def nlind (lvl : Nat) : Str := '\n' :: List.replicate (2 * lvl) ' '

mutual
/-- Model of `json.dump(value, f, indent=2)`: the exact text CPython writes
for `value` at nesting level `lvl` (separators `(",", ": ")`, empty
containers printed without newlines). -/
def jdump2 (lvl : Nat) : Json → Str
  | Json.null => "null".data
  | Json.bool true => "true".data
  | Json.bool false => "false".data
  | Json.num i => intChars i
  | Json.str s => jstr s
  | Json.arr [] => "[]".data
  | Json.arr (x :: xs) =>
      '[' :: (nlind (lvl + 1) ++ jdump2 (lvl + 1) x ++ jarr2 (lvl + 1) xs ++
        nlind lvl ++ [']'])
  | Json.obj [] => [lbrace, rbrace]
  | Json.obj ((k, v) :: kvs) =>
      lbrace :: (nlind (lvl + 1) ++ jstr k ++ ':' :: ' ' ::
        (jdump2 (lvl + 1) v ++ jobj2 (lvl + 1) kvs ++ nlind lvl ++ [rbrace]))

/-- Items of a non-empty array after the first, `indent=2` mode. -/
def jarr2 (lvl : Nat) : List Json → Str
  | [] => []
  | x :: xs => ',' :: (nlind lvl ++ jdump2 lvl x ++ jarr2 lvl xs)

/-- Members of a non-empty object after the first, `indent=2` mode. -/
def jobj2 (lvl : Nat) : List (Str × Json) → Str
  | [] => []
  | (k, v) :: kvs =>
      ',' :: (nlind lvl ++ jstr k ++ ':' :: ' ' ::
        (jdump2 lvl v ++ jobj2 lvl kvs))
end

mutual
/-- Model of `json.dumps(value)` with default separators `(", ", ": ")`,
used by the handler for its response bodies. -/
def jdumpC : Json → Str
  | Json.null => "null".data
  | Json.bool true => "true".data
  | Json.bool false => "false".data
  | Json.num i => intChars i
  | Json.str s => jstr s
  | Json.arr [] => "[]".data
  | Json.arr (x :: xs) => '[' :: (jdumpC x ++ jarrC xs ++ [']'])
  | Json.obj [] => [lbrace, rbrace]
  | Json.obj ((k, v) :: kvs) =>
      lbrace :: (jstr k ++ ':' :: ' ' :: (jdumpC v ++ jobjC kvs ++ [rbrace]))

/-- Items of a non-empty array after the first, compact mode. -/
def jarrC : List Json → Str
  | [] => []
  | x :: xs => ',' :: ' ' :: (jdumpC x ++ jarrC xs)

/-- Members of a non-empty object after the first, compact mode. -/
def jobjC : List (Str × Json) → Str
  | [] => []
  | (k, v) :: kvs => ',' :: ' ' :: (jstr k ++ ':' :: ' ' :: (jdumpC v ++ jobjC kvs))
end

/-- Whitespace skipping of the CPython `json` scanner. -/
def skipWs (s : Str) : Str := s.dropWhile (fun c => isWsC c)

/-- Value of a short escape character after a backslash, following CPython
`json.decoder.BACKSLASH`. -/
def shortEsc (c : Char) : Option Char :=
  if c.toNat = 34 then some '"'
  else if c.toNat = 92 then some '\\'
  else if c.toNat = 47 then some '/'
  else if c.toNat = 98 then some (Char.ofNat 8)
  else if c.toNat = 102 then some (Char.ofNat 12)
  else if c.toNat = 110 then some '\n'
  else if c.toNat = 114 then some '\r'
  else if c.toNat = 116 then some '\t'
  else none

/-- Value of one hexadecimal digit character (both cases), as accepted by
`int(s, 16)` inside the `\uXXXX` handling of the CPython scanner. -/
def fromHexDigit (c : Char) : Option Nat :=
  if 48 ≤ c.toNat ∧ c.toNat ≤ 57 then some (c.toNat - 48)
  else if 97 ≤ c.toNat ∧ c.toNat ≤ 102 then some (c.toNat - 87)
  else if 65 ≤ c.toNat ∧ c.toNat ≤ 70 then some (c.toNat - 55)
  else none

/-- Value of four hexadecimal digit characters. -/
def fromHex4 (a b c d : Char) : Option Nat :=
  match fromHexDigit a, fromHexDigit b, fromHexDigit c, fromHexDigit d with
  | some na, some nb, some nc, some nd => some (na * 4096 + nb * 256 + nc * 16 + nd)
  | _, _, _, _ => none

/-- Decoder for one escape sequence: given the text after a backslash,
returns the decoded character and how many characters the escape consumed,
following CPython `json.decoder.py_scanstring`: the `BACKSLASH` table of
short escapes, `\\uXXXX` code units, and pairs of UTF-16 surrogate escapes
combined into one character.  A *lone* surrogate escape, which CPython keeps
as a non-scalar code unit in the resulting `str`, has no `Char` counterpart
and is rejected (the serialiser never emits one). -/
def escDecode : Str → Option (Char × Nat)
  | [] => none
  | e :: r1 =>
    if e.toNat = 117 then
      match r1 with
      | a :: b :: c1 :: d :: r2 =>
        (match fromHex4 a b c1 d with
         | none => none
         | some n =>
           if 55296 ≤ n ∧ n ≤ 56319 then
             match r2 with
             | e2 :: u2 :: a2 :: b2 :: c2 :: d2 :: _ =>
               if e2.toNat = 92 ∧ u2.toNat = 117 then
                 (match fromHex4 a2 b2 c2 d2 with
                  | none => none
                  | some m =>
                    if 56320 ≤ m ∧ m ≤ 57343 then
                      some (Char.ofNat (65536 + (n - 55296) * 1024 + (m - 56320)), 11)
                    else none)
               else none
             | _ => none
           else if 56320 ≤ n ∧ n ≤ 57343 then none
           else some (Char.ofNat n, 5))
      | _ => none
    else
      match shortEsc e with
      | none => none
      | some ch => some (ch, 1)

/-- Scanner for the body of a JSON string after the opening quote, following
CPython `json.decoder.py_scanstring` with `strict=True`: returns the decoded
characters and the text after the closing quote.  Unescaped control
characters are rejected; escape sequences are decoded by `escDecode`. -/
def parseStrBody : Str → Option (Str × Str)
  | [] => none
  | c :: r =>
    if c.toNat = 34 then some ([], r)
    else if c.toNat = 92 then
      match escDecode r with
      | none => none
      | some (ch, k) =>
        match parseStrBody (r.drop k) with
        | some (cs, r2) => some (ch :: cs, r2)
        | none => none
    else if c.toNat < 32 then none
    else
      match parseStrBody r with
      | some (cs, r2) => some (c :: cs, r2)
      | none => none
termination_by s => s.length
decreasing_by
  · simp only [List.length_cons, List.length_drop]
    omega
  · simp only [List.length_cons]
    omega

/-- Accumulating decimal scanner: consumes leading digits, extending the
accumulator, and stops at the first non-digit. -/
def parseDigits (acc : Nat) : Str → Nat × Str
  | [] => (acc, [])
  | c :: r =>
    if isDigitC c then parseDigits (acc * 10 + (c.toNat - 48)) r
    else (acc, c :: r)

/-- Scanner for a JSON unsigned integer literal: `0`, or a nonzero digit
followed by digits (the integer part of CPython `json.scanner.NUMBER_RE`,
which forbids leading zeros).  Fraction and exponent parts are floats and
outside the embedding. -/
def parseNatNum : Str → Option (Nat × Str)
  | [] => none
  | c :: r =>
    if c.toNat = 48 then some (0, r)
    else if isDigitC c then some (parseDigits (c.toNat - 48) r)
    else none

mutual
/-- Fuel-indexed scanner for one JSON value, following CPython
`json.scanner.py_make_scanner`: skips leading whitespace, dispatches on the
first character, and returns the value with the unconsumed text.  The fuel
only bounds the recursion depth; `loads` supplies `length + 1`, which is
sufficient because every nested scan is preceded by at least one consumed
character. -/
def parseVal : Nat → Str → Option (Json × Str)
  | 0, _ => none
  | Nat.succ fuel, s =>
    match skipWs s with
    | [] => none
    | c :: r =>
      if c.toNat = 110 then
        match r with
        | 'u' :: 'l' :: 'l' :: r2 => some (Json.null, r2)
        | _ => none
      else if c.toNat = 116 then
        match r with
        | 'r' :: 'u' :: 'e' :: r2 => some (Json.bool true, r2)
        | _ => none
      else if c.toNat = 102 then
        match r with
        | 'a' :: 'l' :: 's' :: 'e' :: r2 => some (Json.bool false, r2)
        | _ => none
      else if c.toNat = 34 then
        match parseStrBody r with
        | some (cs, r2) => some (Json.str cs, r2)
        | none => none
      else if c.toNat = 91 then
        match skipWs r with
        | [] => none
        | c2 :: r2 =>
          if c2.toNat = 93 then some (Json.arr [], r2)
          else
            match parseVal fuel (c2 :: r2) with
            | some (v, r3) =>
              (match parseArrTail fuel r3 with
               | some (vs, r4) => some (Json.arr (v :: vs), r4)
               | none => none)
            | none => none
      else if c.toNat = 123 then
        match skipWs r with
        | [] => none
        | c2 :: r2 =>
          if c2.toNat = 125 then some (Json.obj [], r2)
          else if c2.toNat = 34 then
            match parseStrBody r2 with
            | some (k, r3) =>
              (match skipWs r3 with
               | [] => none
               | c3 :: r4 =>
                 if c3.toNat = 58 then
                   match parseVal fuel r4 with
                   | some (v, r5) =>
                     (match parseObjTail fuel r5 with
                      | some (kvs, r6) => some (Json.obj ((k, v) :: kvs), r6)
                      | none => none)
                   | none => none
                 else none)
            | none => none
          else none
      else if c.toNat = 45 then
        match parseNatNum r with
        | some (n, r2) => some (Json.num (-(n : Int)), r2)
        | none => none
      else if isDigitC c then
        match parseNatNum (c :: r) with
        | some (n, r2) => some (Json.num ((n : Int)), r2)
        | none => none
      else none

/-- Scanner for the remainder of an array after one item: either the closing
bracket or a comma followed by an item, repeated. -/
def parseArrTail : Nat → Str → Option (List Json × Str)
  | 0, _ => none
  | Nat.succ fuel, s =>
    match skipWs s with
    | [] => none
    | c :: r =>
      if c.toNat = 93 then some ([], r)
      else if c.toNat = 44 then
        match parseVal fuel r with
        | some (v, r2) =>
          (match parseArrTail fuel r2 with
           | some (vs, r3) => some (v :: vs, r3)
           | none => none)
        | none => none
      else none

/-- Scanner for the remainder of an object after one member: either the
closing brace or a comma followed by a quoted key, a colon and a value,
repeated. -/
def parseObjTail : Nat → Str → Option (List (Str × Json) × Str)
  | 0, _ => none
  | Nat.succ fuel, s =>
    match skipWs s with
    | [] => none
    | c :: r =>
      if c.toNat = 125 then some ([], r)
      else if c.toNat = 44 then
        match skipWs r with
        | [] => none
        | c2 :: r2 =>
          if c2.toNat = 34 then
            match parseStrBody r2 with
            | some (k, r3) =>
              (match skipWs r3 with
               | [] => none
               | c3 :: r4 =>
                 if c3.toNat = 58 then
                   match parseVal fuel r4 with
                   | some (v, r5) =>
                     (match parseObjTail fuel r5 with
                      | some (kvs, r6) => some ((k, v) :: kvs, r6)
                      | none => none)
                   | none => none
                 else none)
            | none => none
          else none
      else none
end

/-- Model of `json.loads` on the float-free fragment: scan one value, then
require only whitespace up to the end of the text (CPython raises
`Extra data` otherwise). -/
def loads (s : Str) : Option Json :=
  match parseVal (s.length + 1) s with
  | some (v, r) => if skipWs r = [] then some v else none
  | none => none

/-- Strict UTF-8 decoding of a byte sequence, the model of
`bytes.decode("utf-8")`: rejects truncated sequences, stray continuation
bytes, overlong encodings, encoded surrogates and code points above
U+10FFFF, exactly the inputs on which CPython raises `UnicodeDecodeError`. -/
def utf8Decode : List Nat → Option Str
  | [] => some []
  | b :: bs =>
    if b < 128 then
      match utf8Decode bs with
      | some cs => some (Char.ofNat b :: cs)
      | none => none
    else if 194 ≤ b ∧ b ≤ 223 then
      match bs with
      | b2 :: bs2 =>
        if 128 ≤ b2 ∧ b2 ≤ 191 then
          match utf8Decode bs2 with
          | some cs => some (Char.ofNat ((b - 192) * 64 + (b2 - 128)) :: cs)
          | none => none
        else none
      | [] => none
    else if 224 ≤ b ∧ b ≤ 239 then
      match bs with
      | b2 :: b3 :: bs3 =>
        if (128 ≤ b2 ∧ b2 ≤ 191) ∧ (128 ≤ b3 ∧ b3 ≤ 191) ∧
           (b = 224 → 160 ≤ b2) ∧ (b = 237 → b2 ≤ 159) then
          match utf8Decode bs3 with
          | some cs =>
              some (Char.ofNat ((b - 224) * 4096 + (b2 - 128) * 64 + (b3 - 128)) :: cs)
          | none => none
        else none
      | _ => none
    else if 240 ≤ b ∧ b ≤ 244 then
      match bs with
      | b2 :: b3 :: b4 :: bs4 =>
        if (128 ≤ b2 ∧ b2 ≤ 191) ∧ (128 ≤ b3 ∧ b3 ≤ 191) ∧ (128 ≤ b4 ∧ b4 ≤ 191) ∧
           (b = 240 → 144 ≤ b2) ∧ (b = 244 → b2 ≤ 143) then
          match utf8Decode bs4 with
          | some cs =>
              some (Char.ofNat ((b - 240) * 262144 + (b2 - 128) * 4096 +
                (b3 - 128) * 64 + (b4 - 128)) :: cs)
          | none => none
        else none
      | _ => none
    else none

/-- Space-like characters stripped by CPython `int(str)` before the sign and
digits. -/
def isPySpace (c : Char) : Bool :=
  c.toNat = 32 || c.toNat = 9 || c.toNat = 10 || c.toNat = 13 ||
  c.toNat = 11 || c.toNat = 12

/-- Digit run accepted by CPython `int(str)` after the optional sign: digits
with single underscores allowed between digits.  The whole remaining text
must be consumed.  (Non-ASCII unicode digits, which CPython also accepts,
are not modelled.) -/
def pyIntDigits : Str → Option Nat :=
  let rec go (acc : Nat) : Str → Option Nat
    | [] => some acc
    | c :: r =>
      if isDigitC c then go (acc * 10 + (c.toNat - 48)) r
      else if c.toNat = 95 then
        match r with
        | c2 :: r2 => if isDigitC c2 then go (acc * 10 + (c2.toNat - 48)) r2 else none
        | [] => none
      else none
  fun s =>
    match s with
    | [] => none
    | c :: r => if isDigitC c then go (c.toNat - 48) r else none

/-- Model of CPython `int(s)` for a `str` argument: strip surrounding
whitespace, optional sign, decimal digits; `none` models the `ValueError`
raised on any other shape. -/
def pyInt (s : Str) : Option Int :=
  let t := ((s.dropWhile (fun c => isPySpace c)).reverse.dropWhile
    (fun c => isPySpace c)).reverse
  match t with
  | c :: r =>
    if c.toNat = 45 then (pyIntDigits r).map (fun n => -(n : Int))
    else if c.toNat = 43 then (pyIntDigits r).map (fun n => (n : Int))
    else (pyIntDigits t).map (fun n => (n : Int))
  | [] => none

/-- One HTTP request as the handler sees it: the request method and path
from the request line, the `Content-Length` header value when present, and
the bytes available to `self.rfile`. -/
structure Request where
  method : Str
  path : Str
  contentLength : Option Str
  body : List Nat

/-- One HTTP response as the handler emits it: the `send_response` /
`send_error` status code, the explicitly sent headers, and the bytes
written to `self.wfile` (held as text; every body the handler writes is
ASCII). -/
structure Response where
  status : Nat
  headers : List (Str × Str)
  body : Str

/-- The state the handler touches: the files on disk (path to text), the
clock second that `int(time.time())` returns while the request is handled,
and whether the episode-file write raises an `OSError`. -/
structure World where
  fs : List (Str × Str)
  now : Int
  writeFails : Bool

/-- First-match association lookup: the content of a file, where the most
recent write of a path shadows older entries. -/
def fsLookup (fs : List (Str × Str)) (name : Str) : Option Str :=
  match fs with
  | [] => none
  | (n, c) :: rest => if n = name then some c else fsLookup rest name

/-- The module constant `EPISODES_DIR = "episodes"`. -/
def EPISODES_DIR : Str := "episodes".data

/-- The generated file name `f"episode_{timestamp}.json"`. -/
def episodeFilename (ts : Int) : Str :=
  "episode_".data ++ intChars ts ++ ".json".data

/-- The written path `os.path.join(EPISODES_DIR, filename)`. -/
def episodePath (ts : Int) : Str :=
  EPISODES_DIR ++ '/' :: episodeFilename ts

/-- The one header the success branch sends:
`self.send_header("Content-type", "application/json")`. -/
def ctHeader : Str × Str := ("Content-type".data, "application/json".data)

/-- The success payload `json.dumps({"status": "success", "file": filename})`
before serialisation. -/
def successObj (filename : Str) : Json :=
  Json.obj [("status".data, Json.str "success".data),
            ("file".data, Json.str filename)]

/-- The error payload `json.dumps({"status": "error", "message": str(e)})`
before serialisation. -/
def errorObj (msg : Str) : Json :=
  Json.obj [("status".data, Json.str "error".data),
            ("message".data, Json.str msg)]

/-- Placeholder for `str(e)` of a `UnicodeDecodeError`.  CPython's exact
wording is not load-bearing anywhere and is not reproduced. -/
def msgUnicode : Str := "invalid utf-8 in request body".data

/-- Placeholder for `str(e)` of a `json.JSONDecodeError`. -/
def msgJson : Str := "invalid json in request body".data

/-- Placeholder for `str(e)` of the `OSError` raised by `open`. -/
def msgWrite : Str := "could not write episode file".data

/-- The response of the `except` branch: `send_response(500)`, no
`send_header` call, then the serialised error payload. -/
def errResponse (msg : Str) : Response :=
  { status := 500, headers := [], body := jdumpC (errorObj msg) }

/-- The response of the success branch: `send_response(200)`, the JSON
content type, then the serialised success payload. -/
def successResponse (filename : Str) : Response :=
  { status := 200, headers := [ctHeader], body := jdumpC (successObj filename) }

/-- Coarse stand-in for the HTML body of `BaseHTTPRequestHandler.send_error`
pages; the spec fixes no contract for it. -/
def errorPageBody (status : Nat) : Str :=
  "http error ".data ++ natDigits status

/-- The `send_error(404)` response of the handler's `else` branch
(`BaseHTTPRequestHandler.send_error` sends an HTML page). -/
def notFoundResponse : Response :=
  { status := 404,
    headers := [("Content-Type".data, "text/html;charset=utf-8".data)],
    body := errorPageBody 404 }

/-- Model of `Handler.do_POST` (`server.py` lines 11–42).  Returns the
response sent — `none` when an exception escapes the method before any
response, which happens exactly when `int(self.headers["Content-Length"])`
raises (missing header: `TypeError` on `int(None)`; malformed value:
`ValueError`), since that line sits outside the `try` block — and the world
after the request. -/
def do_POST (req : Request) (w : World) : Option Response × World :=
  if req.path = "/save".data then
    match req.contentLength with
    | none => (none, w)
    | some v =>
      match pyInt v with
      | none => (none, w)
      | some n =>
        let postData := req.body.take n.toNat
        match utf8Decode postData with
        | none => (some (errResponse msgUnicode), w)
        | some text =>
          match loads text with
          | none => (some (errResponse msgJson), w)
          | some data =>
            if w.writeFails then (some (errResponse msgWrite), w)
            else
              (some (successResponse (episodeFilename w.now)),
               { w with fs := (episodePath w.now, jdump2 0 data) :: w.fs })
  else (some notFoundResponse, w)

/-- Coarse model of the inherited `SimpleHTTPRequestHandler.do_GET`: serve
the file at the path relative to the working directory, or a 404 error
page.  (Directory listings, content-type guessing and query stripping of
the real class are not modelled; no claim depends on them.) -/
def staticServe (w : World) (path : Str) : Response :=
  match path with
  | c :: rel =>
    if c.toNat = 47 then
      match fsLookup w.fs rel with
      | some content => { status := 200, headers := [], body := content }
      | none => notFoundResponse
    else notFoundResponse
  | [] => notFoundResponse

/-- Dispatch of `BaseHTTPRequestHandler.handle_one_request`: the method name
selects `do_<METHOD>`; `Handler` has `do_POST` of its own and inherits
`do_GET` and `do_HEAD` from `SimpleHTTPRequestHandler`; any other method is
answered with `send_error(501, "Unsupported method ...")`. -/
def handleRequest (req : Request) (w : World) : Option Response × World :=
  if req.method = "POST".data then do_POST req w
  else if req.method = "GET".data then (some (staticServe w req.path), w)
  else if req.method = "HEAD".data then
    (some { staticServe w req.path with body := [] }, w)
  else
    (some { status := 501,
            headers := [("Content-Type".data, "text/html;charset=utf-8".data)],
            body := errorPageBody 501 }, w)

/-- The accept loop of `socketserver.TCPServer.serve_forever`, one request
at a time.  An exception escaping a handler method is caught by
`BaseServer.handle_error`, which prints the traceback and keeps serving, so
the loop continues after every outcome, including `none`. -/
def serve (w : World) : List Request → World × List (Option Response)
  | [] => (w, [])
  | r :: rs =>
    let p := handleRequest r w
    let q := serve p.2 rs
    (q.1, p.1 :: q.2)

/-! ## Character and whitespace basics -/

theorem charValidNat (c : Char) :
    c.toNat < 55296 ∨ (57343 < c.toNat ∧ c.toNat < 1114112) := c.valid

theorem toNat_ofNat_valid {n : Nat} (h : n.isValidChar) :
    (Char.ofNat n).toNat = n := by
  rw [Char.ofNat, dif_pos h]
  rfl

theorem toNat_ofNat_small {n : Nat} (h : n < 55296) :
    (Char.ofNat n).toNat = n :=
  toNat_ofNat_valid (Or.inl h)

theorem isWsC_iff (c : Char) :
    isWsC c = true ↔ (c.toNat = 32 ∨ c.toNat = 9 ∨ c.toNat = 10 ∨ c.toNat = 13) := by
  simp only [isWsC, Bool.or_eq_true, decide_eq_true_eq]
  tauto

theorem isDigitC_iff (c : Char) :
    isDigitC c = true ↔ (48 ≤ c.toNat ∧ c.toNat ≤ 57) := by
  simp [isDigitC, Bool.and_eq_true]

theorem skipWs_nil : skipWs [] = [] := rfl

theorem skipWs_cons_ws {c : Char} (h : isWsC c = true) (s : Str) :
    skipWs (c :: s) = skipWs s := by
  simp [skipWs, List.dropWhile, h]

theorem skipWs_cons_not_ws {c : Char} (h : isWsC c = false) (s : Str) :
    skipWs (c :: s) = c :: s := by
  simp [skipWs, List.dropWhile, h]

theorem skipWs_replicate_space (n : Nat) (s : Str) :
    skipWs (List.replicate n ' ' ++ s) = skipWs s := by
  induction n with
  | zero => simp
  | succ k ih =>
    rw [List.replicate_succ, List.cons_append, skipWs_cons_ws (by decide)]
    exact ih

theorem skipWs_nlind (lvl : Nat) (s : Str) :
    skipWs (nlind lvl ++ s) = skipWs s := by
  rw [nlind, List.cons_append, skipWs_cons_ws (by decide)]
  exact skipWs_replicate_space _ s

theorem char_eq_of_toNat {c d : Char} (h : c.toNat = d.toNat) : c = d := by
  have h2 := congrArg Char.ofNat h
  rwa [Char.ofNat_toNat, Char.ofNat_toNat] at h2

theorem ofNat_eq_of_toNat {c : Char} {n : Nat} (h : c.toNat = n) :
    Char.ofNat n = c := by
  subst h
  exact Char.ofNat_toNat c

/-! ## Hexadecimal escapes invert -/

theorem fromHexDigit_hexDigit {n : Nat} (h : n < 16) :
    fromHexDigit (hexDigit n) = some n := by
  rw [hexDigit]
  by_cases h10 : n < 10
  · rw [if_pos h10]
    simp only [fromHexDigit, toNat_ofNat_small (show 48 + n < 55296 by omega)]
    rw [if_pos (by omega)]
    simp only [Option.some.injEq]
    omega
  · rw [if_neg h10]
    simp only [fromHexDigit, toNat_ofNat_small (show 87 + n < 55296 by omega)]
    rw [if_neg (by omega), if_pos (by omega)]
    simp only [Option.some.injEq]
    omega

theorem fromHex4_hex4 {n : Nat} (h : n < 65536) :
    fromHex4 (hexDigit (n / 4096 % 16)) (hexDigit (n / 256 % 16))
      (hexDigit (n / 16 % 16)) (hexDigit (n % 16)) = some n := by
  rw [fromHex4, fromHexDigit_hexDigit (by omega), fromHexDigit_hexDigit (by omega),
    fromHexDigit_hexDigit (by omega), fromHexDigit_hexDigit (by omega)]
  simp only [Option.some.injEq]
  omega

/-! ## The string scanner inverts the string serialiser -/



theorem cc_dq : ('"').toNat = 34 := by decide
theorem cc_bs : ('\\').toNat = 92 := by decide
theorem cc_u : ('u').toNat = 117 := by decide
theorem cc_lf : ('\n').toNat = 10 := by decide
theorem cc_cr : ('\r').toNat = 13 := by decide
theorem cc_tab : ('\t').toNat = 9 := by decide
theorem cc_b8 : (Char.ofNat 8).toNat = 8 := by decide
theorem cc_f12 : (Char.ofNat 12).toNat = 12 := by decide

theorem escDecode_short {e ch : Char} (h117 : ¬ e.toNat = 117)
    (h : shortEsc e = some ch) (rest : Str) :
    escDecode (e :: rest) = some (ch, 1) := by
  simp only [escDecode, if_neg h117, h]

theorem parseStrBody_cons_plain {c : Char} (rest : Str) (h34 : ¬ c.toNat = 34)
    (h92 : ¬ c.toNat = 92) (hctl : ¬ c.toNat < 32) :
    parseStrBody (c :: rest) =
      match parseStrBody rest with
      | some (cs, r2) => some (c :: cs, r2)
      | none => none := by
  simp only [parseStrBody]
  rw [if_neg h34, if_neg h92, if_neg hctl]

theorem parseStrBody_esc1 {e ch : Char} (rest : Str) (h117 : ¬ e.toNat = 117)
    (h : shortEsc e = some ch) :
    parseStrBody ('\\' :: e :: rest) =
      match parseStrBody rest with
      | some (cs, r2) => some (ch :: cs, r2)
      | none => none := by
  simp only [parseStrBody]
  rw [if_neg (by decide), if_pos (by decide), escDecode_short h117 h]
  simp only [List.drop_succ_cons, List.drop_zero]

theorem escDecode_pair {n m : Nat} (hn1 : 55296 ≤ n) (hn2 : n ≤ 56319)
    (hm1 : 56320 ≤ m) (hm2 : m ≤ 57343) (rest : Str) :
    escDecode ('u' :: hexDigit (n / 4096 % 16) :: hexDigit (n / 256 % 16) ::
      hexDigit (n / 16 % 16) :: hexDigit (n % 16) :: '\\' :: 'u' ::
      hexDigit (m / 4096 % 16) :: hexDigit (m / 256 % 16) ::
      hexDigit (m / 16 % 16) :: hexDigit (m % 16) :: rest) =
      some (Char.ofNat (65536 + (n - 55296) * 1024 + (m - 56320)), 11) := by
  simp only [escDecode, cc_u, cc_bs, eq_self_iff_true, and_self, if_true,
    fromHex4_hex4 (show n < 65536 by omega),
    fromHex4_hex4 (show m < 65536 by omega),
    if_pos (show 55296 ≤ n ∧ n ≤ 56319 by omega),
    if_pos (show 56320 ≤ m ∧ m ≤ 57343 by omega)]

theorem parseStrBody_enc (c : Char) (rest : Str) :
    parseStrBody (encodeChar c ++ rest) =
      match parseStrBody rest with
      | some (cs, r2) => some (c :: cs, r2)
      | none => none := by
  have hv := charValidNat c
  simp only [encodeChar]
  by_cases h34 : c.toNat = 34
  · rw [if_pos h34]
    have hc : c = '"' := char_eq_of_toNat h34
    subst hc
    simp only [List.cons_append, List.nil_append]
    exact parseStrBody_esc1 rest (by decide) (by decide)
  rw [if_neg h34]
  by_cases h92 : c.toNat = 92
  · rw [if_pos h92]
    have hc : c = '\\' := char_eq_of_toNat h92
    subst hc
    simp only [List.cons_append, List.nil_append]
    exact parseStrBody_esc1 rest (by decide) (by decide)
  rw [if_neg h92]
  by_cases h8 : c.toNat = 8
  · rw [if_pos h8]
    have hc : Char.ofNat 8 = c := ofNat_eq_of_toNat h8
    subst hc
    simp only [List.cons_append, List.nil_append]
    exact parseStrBody_esc1 rest (by decide) (by decide)
  rw [if_neg h8]
  by_cases h12 : c.toNat = 12
  · rw [if_pos h12]
    have hc : Char.ofNat 12 = c := ofNat_eq_of_toNat h12
    subst hc
    simp only [List.cons_append, List.nil_append]
    exact parseStrBody_esc1 rest (by decide) (by decide)
  rw [if_neg h12]
  by_cases h10 : c.toNat = 10
  · rw [if_pos h10]
    have hc : c = '\n' := char_eq_of_toNat h10
    subst hc
    simp only [List.cons_append, List.nil_append]
    exact parseStrBody_esc1 rest (by decide) (by decide)
  rw [if_neg h10]
  by_cases h13 : c.toNat = 13
  · rw [if_pos h13]
    have hc : c = '\r' := char_eq_of_toNat h13
    subst hc
    simp only [List.cons_append, List.nil_append]
    exact parseStrBody_esc1 rest (by decide) (by decide)
  rw [if_neg h13]
  by_cases h9 : c.toNat = 9
  · rw [if_pos h9]
    have hc : c = '\t' := char_eq_of_toNat h9
    subst hc
    simp only [List.cons_append, List.nil_append]
    exact parseStrBody_esc1 rest (by decide) (by decide)
  rw [if_neg h9]
  by_cases hctl : c.toNat < 32
  · rw [if_pos hctl]
    simp only [hex4, List.cons_append, List.nil_append]
    simp only [parseStrBody]
    rw [if_neg (by decide), if_pos (by decide)]
    simp only [escDecode, cc_u, eq_self_iff_true, if_true,
      fromHex4_hex4 (show c.toNat < 65536 by omega),
      if_neg (show ¬(55296 ≤ c.toNat ∧ c.toNat ≤ 56319) by omega),
      if_neg (show ¬(56320 ≤ c.toNat ∧ c.toNat ≤ 57343) by omega),
      Char.ofNat_toNat, List.drop_succ_cons, List.drop_zero]
  rw [if_neg hctl]
  by_cases hasc : c.toNat < 127
  · rw [if_pos hasc]
    exact parseStrBody_cons_plain rest h34 h92 hctl
  rw [if_neg hasc]
  by_cases hbmp : c.toNat < 65536
  · rw [if_pos hbmp]
    simp only [hex4, List.cons_append, List.nil_append]
    simp only [parseStrBody]
    rw [if_neg (by decide), if_pos (by decide)]
    simp only [escDecode, cc_u, eq_self_iff_true, if_true,
      fromHex4_hex4 (show c.toNat < 65536 by omega),
      if_neg (show ¬(55296 ≤ c.toNat ∧ c.toNat ≤ 56319) by omega),
      if_neg (show ¬(56320 ≤ c.toNat ∧ c.toNat ≤ 57343) by omega),
      Char.ofNat_toNat, List.drop_succ_cons, List.drop_zero]
  rw [if_neg hbmp]
  simp only [hex4, List.cons_append, List.nil_append, List.append_assoc]
  simp only [parseStrBody]
  rw [if_neg (by decide), if_pos (by decide)]
  rw [escDecode_pair (by omega) (by omega) (by omega) (by omega)]
  simp only [List.drop_succ_cons, List.drop_zero]
  rw [show 65536 + (55296 + (c.toNat - 65536) / 1024 - 55296) * 1024 +
      (56320 + (c.toNat - 65536) % 1024 - 56320) = c.toNat by omega,
    Char.ofNat_toNat]

theorem parseStrBody_encStr (s : Str) (rest : Str) :
    parseStrBody (encStr s ++ '"' :: rest) = some (s, rest) := by
  induction s with
  | nil =>
    simp only [encStr, List.nil_append, parseStrBody, cc_dq, eq_self_iff_true, if_true]
  | cons c cs ih =>
    simp only [encStr, List.append_assoc]
    rw [parseStrBody_enc c, ih]

/-! ## The number scanner inverts the integer serialiser -/

/-- Text that cannot extend a decimal literal: empty, or starting with a
non-digit. -/
def delimOk : Str → Prop
  | [] => True
  | c :: _ => isDigitC c = false

theorem digitChar_toNat {n : Nat} (h : n < 10) : (digitChar n).toNat = 48 + n := by
  rw [digitChar]
  exact toNat_ofNat_small (by omega)

theorem digitChar_isDigit {n : Nat} (h : n < 10) : isDigitC (digitChar n) = true := by
  rw [isDigitC_iff, digitChar_toNat h]
  omega

theorem natDigits_all_digit (n : Nat) : ∀ c ∈ natDigits n, isDigitC c = true := by
  induction n using Nat.strong_induction_on with
  | _ n ih =>
    rw [natDigits]
    by_cases h : n < 10
    · rw [if_pos h]
      intro c hc
      rw [List.mem_singleton] at hc
      subst hc
      exact digitChar_isDigit h
    · rw [if_neg h]
      intro c hc
      rcases List.mem_append.mp hc with h1 | h2
      · exact ih (n / 10) (Nat.div_lt_self (by omega) (by omega)) c h1
      · rw [List.mem_singleton] at h2
        subst h2
        exact digitChar_isDigit (Nat.mod_lt n (by omega))

theorem natDigits_head (n : Nat) :
    ∃ d ds, natDigits n = d :: ds ∧ isDigitC d = true ∧ (0 < n → d.toNat ≠ 48) := by
  induction n using Nat.strong_induction_on with
  | _ n ih =>
    rw [natDigits]
    by_cases h : n < 10
    · rw [if_pos h]
      refine ⟨digitChar n, [], rfl, digitChar_isDigit h, fun hn => ?_⟩
      rw [digitChar_toNat h]
      omega
    · rw [if_neg h]
      obtain ⟨d, ds, heq, hdig, hne⟩ := ih (n / 10) (Nat.div_lt_self (by omega) (by omega))
      refine ⟨d, ds ++ [digitChar (n % 10)], by rw [heq]; rfl, hdig, fun _ => ?_⟩
      exact hne (by omega)

theorem parseDigits_stop (acc : Nat) (rest : Str) (hr : delimOk rest) :
    parseDigits acc rest = (acc, rest) := by
  cases rest with
  | nil => rfl
  | cons c r =>
    rw [delimOk] at hr
    simp only [parseDigits, hr, Bool.false_eq_true, if_false]

theorem parseDigits_run (ds : Str) (hd : ∀ c ∈ ds, isDigitC c = true)
    (acc : Nat) (rest : Str) :
    parseDigits acc (ds ++ rest) =
      parseDigits (List.foldl (fun a c => a * 10 + (c.toNat - 48)) acc ds) rest := by
  induction ds generalizing acc with
  | nil => rfl
  | cons d ds ih =>
    have hdd : isDigitC d = true := hd d (List.mem_cons_self d ds)
    simp only [List.cons_append, parseDigits, hdd, if_true, List.foldl_cons]
    exact ih (fun c hc => hd c (List.mem_cons_of_mem d hc)) _

theorem foldl_natDigits (n : Nat) (acc : Nat) :
    List.foldl (fun a c => a * 10 + (c.toNat - 48)) acc (natDigits n) =
      acc * 10 ^ (natDigits n).length + n := by
  induction n using Nat.strong_induction_on generalizing acc with
  | _ n ih =>
    rw [natDigits]
    by_cases h : n < 10
    · rw [if_pos h]
      simp only [List.foldl_cons, List.foldl_nil, List.length_singleton,
        digitChar_toNat h, pow_one]
      omega
    · rw [if_neg h]
      rw [List.foldl_append, ih (n / 10) (Nat.div_lt_self (by omega) (by omega)),
        List.length_append]
      simp only [List.foldl_cons, List.foldl_nil, List.length_singleton]
      rw [digitChar_toNat (Nat.mod_lt n (by omega))]
      have hmod : n % 10 + 48 - 48 = n % 10 := by omega
      rw [pow_succ]
      have hdm : n / 10 * 10 + n % 10 = n := by omega
      calc (acc * 10 ^ (natDigits (n / 10)).length + n / 10) * 10 + (48 + n % 10 - 48)
          = acc * (10 ^ (natDigits (n / 10)).length * 10) + (n / 10 * 10 + n % 10) := by
            have h48 : 48 + n % 10 - 48 = n % 10 := by omega
            rw [h48]
            ring
        _ = acc * (10 ^ (natDigits (n / 10)).length * 10) + n := by rw [hdm]

theorem parseNatNum_natDigits (n : Nat) (rest : Str) (hr : delimOk rest) :
    parseNatNum (natDigits n ++ rest) = some (n, rest) := by
  rcases Nat.eq_zero_or_pos n with h0 | hpos
  · subst h0
    rw [show natDigits 0 = [digitChar 0] from by rw [natDigits, if_pos (by omega)]]
    simp only [List.cons_append, List.nil_append, parseNatNum]
    rw [show (digitChar 0).toNat = 48 from by decide, if_pos rfl]
  · obtain ⟨d, ds, heq, hdig, hne⟩ := natDigits_head n
    rw [heq, List.cons_append]
    have hd48 : ¬ d.toNat = 48 := hne hpos
    simp only [parseNatNum, if_neg hd48, hdig, if_true]
    have hall := natDigits_all_digit n
    rw [heq] at hall
    rw [parseDigits_run ds (fun c hc => hall c (List.mem_cons_of_mem d hc)) _ rest,
      parseDigits_stop _ rest hr]
    have hfold := foldl_natDigits n 0
    rw [heq] at hfold
    simp only [List.foldl_cons, Nat.zero_mul, Nat.zero_add] at hfold
    rw [hfold]

/-! ## Fuel accounting and head shapes of the serialiser output -/

mutual
/-- Recursion depth the scanner needs for one value: an upper bound matching
the fuel discipline of `parseVal`. -/
def pfuel : Json → Nat
  | Json.null => 1
  | Json.bool _ => 1
  | Json.num _ => 1
  | Json.str _ => 1
  | Json.arr [] => 1
  | Json.arr (x :: xs) => 1 + max (pfuel x) (ptailA xs)
  | Json.obj [] => 1
  | Json.obj ((_, v) :: kvs) => 1 + max (pfuel v) (ptailO kvs)

/-- Recursion depth `parseArrTail` needs for the remaining items. -/
def ptailA : List Json → Nat
  | [] => 1
  | x :: xs => 1 + max (pfuel x) (ptailA xs)

/-- Recursion depth `parseObjTail` needs for the remaining members. -/
def ptailO : List (Str × Json) → Nat
  | [] => 1
  | (_, v) :: kvs => 1 + max (pfuel v) (ptailO kvs)
end

theorem digit_head_facts {c : Char} (h : isDigitC c = true) :
    isWsC c = false ∧ c.toNat ≠ 93 ∧ c.toNat ≠ 125 := by
  rw [isDigitC_iff] at h
  refine ⟨?_, by omega, by omega⟩
  cases hw : isWsC c with
  | false => rfl
  | true => rw [isWsC_iff] at hw; omega

theorem intChars_head (i : Int) :
    ∃ c r, intChars i = c :: r ∧ isWsC c = false ∧ c.toNat ≠ 93 ∧ c.toNat ≠ 125 := by
  rw [intChars]
  by_cases h : i < 0
  · exact ⟨'-', natDigits i.natAbs, by rw [if_pos h], by decide, by decide, by decide⟩
  · obtain ⟨d, ds, heq, hdig, _⟩ := natDigits_head i.toNat
    obtain ⟨hw, h93, h125⟩ := digit_head_facts hdig
    exact ⟨d, ds, by rw [if_neg h, heq], hw, h93, h125⟩

theorem jdump2_head (lvl : Nat) (j : Json) :
    ∃ c r, jdump2 lvl j = c :: r ∧ isWsC c = false ∧ c.toNat ≠ 93 ∧ c.toNat ≠ 125 := by
  cases j with
  | null => exact ⟨'n', ['u', 'l', 'l'], by simp only [jdump2], by decide, by decide, by decide⟩
  | bool b =>
    cases b with
    | true => exact ⟨'t', ['r', 'u', 'e'], by simp only [jdump2], by decide, by decide, by decide⟩
    | false => exact ⟨'f', ['a', 'l', 's', 'e'], by simp only [jdump2], by decide, by decide, by decide⟩
  | num i =>
    obtain ⟨c, r, heq, hw, h93, h125⟩ := intChars_head i
    exact ⟨c, r, by simp only [jdump2]; exact heq, hw, h93, h125⟩
  | str s =>
    exact ⟨'"', encStr s ++ ['"'], by simp only [jdump2, jstr], by decide, by decide, by decide⟩
  | arr xs =>
    cases xs with
    | nil => exact ⟨'[', [']'], by simp only [jdump2], by decide, by decide, by decide⟩
    | cons x xs =>
      refine ⟨'[', nlind (lvl + 1) ++ jdump2 (lvl + 1) x ++ jarr2 (lvl + 1) xs ++
        nlind lvl ++ [']'], ?_, by decide, by decide, by decide⟩
      simp only [jdump2]
  | obj kvs =>
    cases kvs with
    | nil => exact ⟨lbrace, [rbrace], by simp only [jdump2], by decide, by decide, by decide⟩
    | cons kv kvs =>
      obtain ⟨k, v⟩ := kv
      refine ⟨lbrace, nlind (lvl + 1) ++ jstr k ++ ':' :: ' ' ::
        (jdump2 (lvl + 1) v ++ jobj2 (lvl + 1) kvs ++ nlind lvl ++ [rbrace]),
        ?_, by decide, by decide, by decide⟩
      simp only [jdump2]

theorem delim_nlind (lvl : Nat) (r : Str) : delimOk (nlind lvl ++ r) := by
  rw [nlind, List.cons_append]
  show isDigitC '\n' = false
  decide

theorem delim_jarr2 (lvl2 lvl : Nat) (xs : List Json) (r : Str) :
    delimOk (jarr2 lvl2 xs ++ (nlind lvl ++ r)) := by
  cases xs with
  | nil => rw [jarr2, List.nil_append]; exact delim_nlind lvl r
  | cons x xs =>
    rw [jarr2, List.cons_append]
    show isDigitC ',' = false
    decide

theorem delim_jobj2 (lvl2 lvl : Nat) (kvs : List (Str × Json)) (r : Str) :
    delimOk (jobj2 lvl2 kvs ++ (nlind lvl ++ r)) := by
  cases kvs with
  | nil => rw [jobj2, List.nil_append]; exact delim_nlind lvl r
  | cons kv kvs =>
    obtain ⟨k, v⟩ := kv
    rw [jobj2, List.cons_append]
    show isDigitC ',' = false
    decide

theorem skipWs_ws_append (pre : Str) (h : ∀ c ∈ pre, isWsC c = true) (s : Str) :
    skipWs (pre ++ s) = skipWs s := by
  induction pre with
  | nil => rw [List.nil_append]
  | cons c p ih =>
    rw [List.cons_append, skipWs_cons_ws (h c (List.mem_cons_self c p))]
    exact ih (fun d hd => h d (List.mem_cons_of_mem c hd))

theorem nlind_all_ws (lvl : Nat) : ∀ c ∈ nlind lvl, isWsC c = true := by
  intro c hc
  rw [nlind] at hc
  rcases List.mem_cons.mp hc with h | h
  · subst h; decide
  · rw [List.eq_of_mem_replicate h]; decide

theorem cc_n : ('n').toNat = 110 := by decide
theorem cc_t : ('t').toNat = 116 := by decide
theorem cc_f : ('f').toNat = 102 := by decide
theorem cc_lbk : ('[').toNat = 91 := by decide
theorem cc_rbk : (']').toNat = 93 := by decide
theorem cc_comma : (',').toNat = 44 := by decide
theorem cc_colon : (':').toNat = 58 := by decide
theorem cc_minus : ('-').toNat = 45 := by decide
theorem cc_lb : lbrace.toNat = 123 := by decide
theorem cc_rb : rbrace.toNat = 125 := by decide

theorem parseVal_null (fuel : Nat) (pre rest : Str) (hpre : ∀ c ∈ pre, isWsC c = true) :
    parseVal (fuel + 1) (pre ++ ("null".data ++ rest)) = some (Json.null, rest) := by
  rw [show ("null").data = 'n' :: 'u' :: 'l' :: 'l' :: ([] : Str) from rfl]
  simp only [List.cons_append, List.nil_append]
  simp only [parseVal]
  rw [skipWs_ws_append pre hpre, skipWs_cons_not_ws (by decide)]
  simp only [cc_n, eq_self_iff_true, if_true]

theorem parseVal_true (fuel : Nat) (pre rest : Str) (hpre : ∀ c ∈ pre, isWsC c = true) :
    parseVal (fuel + 1) (pre ++ ("true".data ++ rest)) = some (Json.bool true, rest) := by
  rw [show ("true").data = 't' :: 'r' :: 'u' :: 'e' :: ([] : Str) from rfl]
  simp only [List.cons_append, List.nil_append]
  simp only [parseVal]
  rw [skipWs_ws_append pre hpre, skipWs_cons_not_ws (by decide)]
  simp only [cc_t, Nat.reduceEqDiff, if_false, eq_self_iff_true, if_true]

theorem parseVal_false (fuel : Nat) (pre rest : Str) (hpre : ∀ c ∈ pre, isWsC c = true) :
    parseVal (fuel + 1) (pre ++ ("false".data ++ rest)) = some (Json.bool false, rest) := by
  rw [show ("false").data = 'f' :: 'a' :: 'l' :: 's' :: 'e' :: ([] : Str) from rfl]
  simp only [List.cons_append, List.nil_append]
  simp only [parseVal]
  rw [skipWs_ws_append pre hpre, skipWs_cons_not_ws (by decide)]
  simp only [cc_f, Nat.reduceEqDiff, if_false, eq_self_iff_true, if_true]

theorem parseVal_str (fuel : Nat) (s : Str) (pre rest : Str)
    (hpre : ∀ c ∈ pre, isWsC c = true) :
    parseVal (fuel + 1) (pre ++ (jstr s ++ rest)) = some (Json.str s, rest) := by
  rw [jstr]
  simp only [List.cons_append, List.append_assoc, List.nil_append]
  simp only [parseVal]
  rw [skipWs_ws_append pre hpre, skipWs_cons_not_ws (by decide)]
  simp only [cc_dq, Nat.reduceEqDiff, if_false, eq_self_iff_true, if_true]
  rw [parseStrBody_encStr]

theorem parseVal_num (fuel : Nat) (i : Int) (pre rest : Str)
    (hpre : ∀ c ∈ pre, isWsC c = true) (hrest : delimOk rest) :
    parseVal (fuel + 1) (pre ++ (intChars i ++ rest)) = some (Json.num i, rest) := by
  rw [intChars]
  by_cases hneg : i < 0
  · rw [if_pos hneg]
    simp only [List.cons_append]
    simp only [parseVal]
    rw [skipWs_ws_append pre hpre, skipWs_cons_not_ws (by decide)]
    simp only [cc_minus, Nat.reduceEqDiff, if_false, eq_self_iff_true, if_true,
      show isDigitC '-' = false by decide, Bool.false_eq_true]
    rw [parseNatNum_natDigits _ rest hrest]
    show some (Json.num (-((i.natAbs : Nat) : Int)), rest) = some (Json.num i, rest)
    rw [show -((i.natAbs : Nat) : Int) = i from by omega]
  · rw [if_neg hneg]
    obtain ⟨d, ds, heq, hdig, _⟩ := natDigits_head i.toNat
    have hd := (isDigitC_iff d).mp hdig
    have hws : isWsC d = false := (digit_head_facts hdig).1
    have hsk : skipWs (pre ++ (natDigits i.toNat ++ rest)) = d :: (ds ++ rest) := by
      rw [skipWs_ws_append pre hpre, heq, List.cons_append, skipWs_cons_not_ws hws]
    simp only [parseVal, hsk, if_neg (show ¬ d.toNat = 110 by omega),
      if_neg (show ¬ d.toNat = 116 by omega), if_neg (show ¬ d.toNat = 102 by omega),
      if_neg (show ¬ d.toNat = 34 by omega), if_neg (show ¬ d.toNat = 91 by omega),
      if_neg (show ¬ d.toNat = 123 by omega), if_neg (show ¬ d.toNat = 45 by omega),
      if_pos hdig]
    rw [← List.cons_append, ← heq, parseNatNum_natDigits _ rest hrest]
    show some (Json.num ((i.toNat : Nat) : Int), rest) = some (Json.num i, rest)
    rw [show ((i.toNat : Nat) : Int) = i from by omega]

theorem pfuel_pos (j : Json) : 0 < pfuel j := by
  cases j with
  | null => simp only [pfuel]; omega
  | bool b => simp only [pfuel]; omega
  | num i => simp only [pfuel]; omega
  | str s => simp only [pfuel]; omega
  | arr xs =>
    cases xs with
    | nil => simp only [pfuel]; omega
    | cons x xs => simp only [pfuel]; omega
  | obj kvs =>
    cases kvs with
    | nil => simp only [pfuel]; omega
    | cons kv kvs => obtain ⟨k, v⟩ := kv; simp only [pfuel]; omega

theorem ptailA_pos (xs : List Json) : 0 < ptailA xs := by
  cases xs with
  | nil => simp only [ptailA]; omega
  | cons x xs => simp only [ptailA]; omega

theorem ptailO_pos (kvs : List (Str × Json)) : 0 < ptailO kvs := by
  cases kvs with
  | nil => simp only [ptailO]; omega
  | cons kv kvs => obtain ⟨k, v⟩ := kv; simp only [ptailO]; omega

theorem rtAll : ∀ fuel : Nat,
    (∀ (j : Json) (lvl : Nat) (pre rest : Str),
       (∀ c ∈ pre, isWsC c = true) → delimOk rest → pfuel j ≤ fuel →
       parseVal fuel (pre ++ (jdump2 lvl j ++ rest)) = some (j, rest))
  ∧ (∀ (xs : List Json) (lvl2 lvl : Nat) (rest : Str), ptailA xs ≤ fuel →
       parseArrTail fuel (jarr2 lvl2 xs ++ (nlind lvl ++ ']' :: rest)) = some (xs, rest))
  ∧ (∀ (kvs : List (Str × Json)) (lvl2 lvl : Nat) (rest : Str), ptailO kvs ≤ fuel →
       parseObjTail fuel (jobj2 lvl2 kvs ++ (nlind lvl ++ rbrace :: rest)) = some (kvs, rest)) := by
  intro fuel
  induction fuel with
  | zero =>
    refine ⟨?_, ?_, ?_⟩
    · intro j lvl pre rest _ _ hf
      exact absurd hf (by have := pfuel_pos j; omega)
    · intro xs lvl2 lvl rest hf
      exact absurd hf (by have := ptailA_pos xs; omega)
    · intro kvs lvl2 lvl rest hf
      exact absurd hf (by have := ptailO_pos kvs; omega)
  | succ fuel ih =>
    obtain ⟨ihV, ihA, ihO⟩ := ih
    refine ⟨?_, ?_, ?_⟩
    · intro j lvl pre rest hpre hrest hf
      cases j with
      | null =>
        simp only [jdump2]
        exact parseVal_null fuel pre rest hpre
      | bool b =>
        cases b with
        | true =>
          simp only [jdump2]
          exact parseVal_true fuel pre rest hpre
        | false =>
          simp only [jdump2]
          exact parseVal_false fuel pre rest hpre
      | num i =>
        simp only [jdump2]
        exact parseVal_num fuel i pre rest hpre hrest
      | str s =>
        simp only [jdump2]
        exact parseVal_str fuel s pre rest hpre
      | arr xs =>
        cases xs with
        | nil =>
          simp only [jdump2]
          simp only [List.cons_append, List.nil_append]
          have hsk : skipWs (pre ++ '[' :: ']' :: rest) = '[' :: ']' :: rest := by
            rw [skipWs_ws_append pre hpre, skipWs_cons_not_ws (by decide)]
          simp only [parseVal, hsk, cc_lbk, Nat.reduceEqDiff, if_false,
            eq_self_iff_true, if_true,
            skipWs_cons_not_ws (show isWsC ']' = false by decide), cc_rbk]
        | cons x xs =>
          obtain ⟨c, r, heq, hw, h93, h125⟩ := jdump2_head (lvl + 1) x
          have hfx : pfuel x ≤ fuel ∧ ptailA xs ≤ fuel := by
            simp only [pfuel] at hf
            omega
          have hval : parseVal fuel (c :: (r ++ (jarr2 (lvl + 1) xs ++
              (nlind lvl ++ ']' :: rest)))) =
              some (x, jarr2 (lvl + 1) xs ++ (nlind lvl ++ ']' :: rest)) := by
            rw [← List.cons_append, ← heq]
            have h2 := ihV x (lvl + 1) [] (jarr2 (lvl + 1) xs ++ (nlind lvl ++ ']' :: rest))
              (by intro d hd; cases hd) (delim_jarr2 _ _ _ _) hfx.1
            rwa [List.nil_append] at h2
          have htail := ihA xs (lvl + 1) lvl rest hfx.2
          simp only [jdump2, List.cons_append, List.nil_append, List.append_assoc]
          simp only [parseVal, skipWs_ws_append pre hpre,
            skipWs_cons_not_ws (show isWsC '[' = false by decide), cc_lbk,
            Nat.reduceEqDiff, if_false, eq_self_iff_true, if_true,
            skipWs_ws_append (nlind (lvl + 1)) (nlind_all_ws _), heq,
            List.cons_append, List.nil_append, List.append_assoc,
            skipWs_cons_not_ws hw, if_neg h93, hval, htail]
      | obj kvs =>
        cases kvs with
        | nil =>
          simp only [jdump2]
          simp only [List.cons_append, List.nil_append, List.append_assoc]
          simp only [parseVal, skipWs_ws_append pre hpre,
            skipWs_cons_not_ws (show isWsC lbrace = false by decide), cc_lb,
            Nat.reduceEqDiff, if_false, eq_self_iff_true, if_true,
            skipWs_cons_not_ws (show isWsC rbrace = false by decide), cc_rb]
        | cons kv kvs =>
          obtain ⟨k, v⟩ := kv
          have hfv : pfuel v ≤ fuel ∧ ptailO kvs ≤ fuel := by
            simp only [pfuel] at hf
            omega
          have hval : parseVal fuel (' ' :: (jdump2 (lvl + 1) v ++ (jobj2 (lvl + 1) kvs ++
              (nlind lvl ++ rbrace :: rest)))) =
              some (v, jobj2 (lvl + 1) kvs ++ (nlind lvl ++ rbrace :: rest)) := by
            have h2 := ihV v (lvl + 1) [' ']
              (jobj2 (lvl + 1) kvs ++ (nlind lvl ++ rbrace :: rest))
              (by intro d hd; rw [List.mem_singleton] at hd; subst hd; decide)
              (delim_jobj2 _ _ _ _) hfv.1
            rwa [show ([' '] : Str) ++ (jdump2 (lvl + 1) v ++ (jobj2 (lvl + 1) kvs ++
              (nlind lvl ++ rbrace :: rest))) = ' ' :: (jdump2 (lvl + 1) v ++
              (jobj2 (lvl + 1) kvs ++ (nlind lvl ++ rbrace :: rest))) from rfl] at h2
          have htail := ihO kvs (lvl + 1) lvl rest hfv.2
          simp only [jdump2, jstr, List.cons_append, List.nil_append, List.append_assoc]
          simp only [parseVal, skipWs_ws_append pre hpre,
            skipWs_cons_not_ws (show isWsC lbrace = false by decide), cc_lb,
            Nat.reduceEqDiff, if_false, eq_self_iff_true, if_true,
            skipWs_ws_append (nlind (lvl + 1)) (nlind_all_ws _),
            List.cons_append, List.nil_append, List.append_assoc,
            skipWs_cons_not_ws (show isWsC '"' = false by decide), cc_dq,
            parseStrBody_encStr,
            skipWs_cons_not_ws (show isWsC ':' = false by decide), cc_colon,
            hval, htail]
    · intro xs lvl2 lvl rest hf
      cases xs with
      | nil =>
        simp only [jarr2, List.nil_append]
        simp only [parseArrTail, skipWs_ws_append (nlind lvl) (nlind_all_ws _),
          skipWs_cons_not_ws (show isWsC ']' = false by decide), cc_rbk,
          eq_self_iff_true, if_true]
      | cons x xs =>
        obtain ⟨c, r, heq, hw, h93, h125⟩ := jdump2_head lvl2 x
        have hfx : pfuel x ≤ fuel ∧ ptailA xs ≤ fuel := by
          simp only [ptailA] at hf
          omega
        have hval : parseVal fuel (nlind lvl2 ++ (jdump2 lvl2 x ++ (jarr2 lvl2 xs ++
            (nlind lvl ++ ']' :: rest)))) =
            some (x, jarr2 lvl2 xs ++ (nlind lvl ++ ']' :: rest)) :=
          ihV x lvl2 (nlind lvl2) (jarr2 lvl2 xs ++ (nlind lvl ++ ']' :: rest))
            (nlind_all_ws _) (delim_jarr2 _ _ _ _) hfx.1
        have htail := ihA xs lvl2 lvl rest hfx.2
        simp only [jarr2, List.cons_append, List.nil_append, List.append_assoc]
        simp only [parseArrTail,
          skipWs_cons_not_ws (show isWsC ',' = false by decide), cc_comma,
          List.cons_append, List.nil_append, List.append_assoc,
          Nat.reduceEqDiff, if_false, eq_self_iff_true, if_true, hval, htail]
    · intro kvs lvl2 lvl rest hf
      cases kvs with
      | nil =>
        simp only [jobj2, List.nil_append]
        simp only [parseObjTail, skipWs_ws_append (nlind lvl) (nlind_all_ws _),
          skipWs_cons_not_ws (show isWsC rbrace = false by decide), cc_rb,
          eq_self_iff_true, if_true]
      | cons kv kvs =>
        obtain ⟨k, v⟩ := kv
        have hfv : pfuel v ≤ fuel ∧ ptailO kvs ≤ fuel := by
          simp only [ptailO] at hf
          omega
        have hval : parseVal fuel (' ' :: (jdump2 lvl2 v ++ (jobj2 lvl2 kvs ++
            (nlind lvl ++ rbrace :: rest)))) =
            some (v, jobj2 lvl2 kvs ++ (nlind lvl ++ rbrace :: rest)) := by
          have h2 := ihV v lvl2 [' ']
            (jobj2 lvl2 kvs ++ (nlind lvl ++ rbrace :: rest))
            (by intro d hd; rw [List.mem_singleton] at hd; subst hd; decide)
            (delim_jobj2 _ _ _ _) hfv.1
          rwa [show ([' '] : Str) ++ (jdump2 lvl2 v ++ (jobj2 lvl2 kvs ++
            (nlind lvl ++ rbrace :: rest))) = ' ' :: (jdump2 lvl2 v ++
            (jobj2 lvl2 kvs ++ (nlind lvl ++ rbrace :: rest))) from rfl] at h2
        have htail := ihO kvs lvl2 lvl rest hfv.2
        simp only [jobj2, jstr, List.cons_append, List.nil_append, List.append_assoc]
        simp only [parseObjTail,
          skipWs_cons_not_ws (show isWsC ',' = false by decide), cc_comma,
          List.cons_append, List.nil_append, List.append_assoc,
          Nat.reduceEqDiff, if_false, eq_self_iff_true, if_true,
          skipWs_ws_append (nlind lvl2) (nlind_all_ws _),
          skipWs_cons_not_ws (show isWsC '"' = false by decide), cc_dq,
          parseStrBody_encStr,
          skipWs_cons_not_ws (show isWsC ':' = false by decide), cc_colon,
          hval, htail]

theorem natDigits_ne_nil (n : Nat) : natDigits n ≠ [] := by
  rw [natDigits]
  by_cases h : n < 10
  · rw [if_pos h]
    exact List.cons_ne_nil _ _
  · rw [if_neg h]
    exact List.append_ne_nil_of_right_ne_nil _ (List.cons_ne_nil _ _)

theorem intChars_len (i : Int) : 1 ≤ (intChars i).length := by
  rw [intChars]
  by_cases h : i < 0
  · rw [if_pos h]
    simp
  · rw [if_neg h]
    have := natDigits_ne_nil i.toNat
    cases hh : natDigits i.toNat with
    | nil => exact absurd hh this
    | cons d ds => simp [hh]

theorem bridgeAll : ∀ n : Nat,
    (∀ (j : Json) (lvl : Nat), pfuel j ≤ n → pfuel j ≤ (jdump2 lvl j).length + 1)
  ∧ (∀ (xs : List Json) (lvl : Nat), ptailA xs ≤ n → ptailA xs ≤ (jarr2 lvl xs).length + 1)
  ∧ (∀ (kvs : List (Str × Json)) (lvl : Nat), ptailO kvs ≤ n →
       ptailO kvs ≤ (jobj2 lvl kvs).length + 1) := by
  intro n
  induction n with
  | zero =>
    refine ⟨?_, ?_, ?_⟩
    · intro j _ hf
      exact absurd hf (by have := pfuel_pos j; omega)
    · intro xs _ hf
      exact absurd hf (by have := ptailA_pos xs; omega)
    · intro kvs _ hf
      exact absurd hf (by have := ptailO_pos kvs; omega)
  | succ n ih =>
    obtain ⟨ihV, ihA, ihO⟩ := ih
    refine ⟨?_, ?_, ?_⟩
    · intro j lvl hf
      cases j with
      | null => simp only [pfuel]; simp [jdump2]
      | bool b => cases b <;> simp only [pfuel] <;> simp [jdump2]
      | num i =>
        simp only [pfuel, jdump2]
        have := intChars_len i
        omega
      | str s => simp only [pfuel]; simp [jdump2, jstr]
      | arr xs =>
        cases xs with
        | nil => simp only [pfuel]; simp [jdump2]
        | cons x xs =>
          simp only [pfuel] at hf ⊢
          have h1 := ihV x (lvl + 1) (by omega)
          have h2 := ihA xs (lvl + 1) (by omega)
          simp only [jdump2, List.length_cons, List.length_append, nlind,
            List.length_replicate]
          omega
      | obj kvs =>
        cases kvs with
        | nil => simp only [pfuel]; simp [jdump2]
        | cons kv kvs =>
          obtain ⟨k, v⟩ := kv
          simp only [pfuel] at hf ⊢
          have h1 := ihV v (lvl + 1) (by omega)
          have h2 := ihO kvs (lvl + 1) (by omega)
          simp only [jdump2, List.length_cons, List.length_append, nlind,
            List.length_replicate]
          omega
    · intro xs lvl hf
      cases xs with
      | nil => simp only [ptailA]; simp [jarr2]
      | cons x xs =>
        simp only [ptailA] at hf ⊢
        have h1 := ihV x lvl (by omega)
        have h2 := ihA xs lvl (by omega)
        simp only [jarr2, List.length_cons, List.length_append, nlind,
          List.length_replicate]
        omega
    · intro kvs lvl hf
      cases kvs with
      | nil => simp only [ptailO]; simp [jobj2]
      | cons kv kvs =>
        obtain ⟨k, v⟩ := kv
        simp only [ptailO] at hf ⊢
        have h1 := ihV v lvl (by omega)
        have h2 := ihO kvs lvl (by omega)
        simp only [jobj2, List.length_cons, List.length_append, nlind,
          List.length_replicate]
        omega

/-- The round trip at the heart of the episode store: parsing back the
`indent=2` serialisation of any (float-free) JSON value returns the value. -/
theorem loads_jdump2 (j : Json) : loads (jdump2 0 j) = some j := by
  have hb := ((bridgeAll (pfuel j)).1 j 0 (le_refl _))
  have hrt := (rtAll ((jdump2 0 j).length + 1)).1 j 0 [] [] (by intro c hc; cases hc)
    trivial hb
  rw [List.nil_append, List.append_nil] at hrt
  rw [loads, hrt]
  rfl

/-! ## Behaviour of the request handler -/

theorem handleRequest_success (req : Request) (w : World) (v : Str) (cl : Int)
    (t : Str) (P : Json)
    (hm : req.method = "POST".data) (hp : req.path = "/save".data)
    (hv : req.contentLength = some v) (hcl : pyInt v = some cl)
    (ht : utf8Decode (req.body.take cl.toNat) = some t) (hP : loads t = some P)
    (hwf : w.writeFails = false) :
    handleRequest req w =
      (some (successResponse (episodeFilename w.now)),
       { w with fs := (episodePath w.now, jdump2 0 P) :: w.fs }) := by
  simp only [handleRequest, hm, eq_self_iff_true, if_true, do_POST, hp, hv, hcl,
    ht, hP, hwf, Bool.false_eq_true, if_false]

/-- C1: a `POST /save` whose `Content-Length` parses, whose body is valid
UTF-8 JSON (float-free fragment) and whose file write succeeds is answered
with HTTP 200, the `Content-type: application/json` header, and the JSON
body `{"status": "success", "file": "episode_<timestamp>.json"}` whose
`file` field is exactly the name of the file just written (the new entry
placed in the filesystem under the output directory). -/
theorem c1_save_success (req : Request) (w : World) (v : Str) (cl : Int)
    (t : Str) (P : Json)
    (hm : req.method = "POST".data) (hp : req.path = "/save".data)
    (hv : req.contentLength = some v) (hcl : pyInt v = some cl)
    (ht : utf8Decode (req.body.take cl.toNat) = some t) (hP : loads t = some P)
    (hwf : w.writeFails = false) :
    handleRequest req w =
      (some { status := 200, headers := [ctHeader],
              body := jdumpC (successObj (episodeFilename w.now)) },
       { w with fs := (episodePath w.now, jdump2 0 P) :: w.fs }) :=
  handleRequest_success req w v cl t P hm hp hv hcl ht hP hwf

/-- Sample world: empty episode directory, clock at second 5, writes
succeed. -/
def w0 : World := { fs := [], now := 5, writeFails := false }

/-- Sample request: `POST /save` with body `[1]` and a correct
`Content-Length`. -/
def goodReq : Request :=
  { method := "POST".data, path := "/save".data,
    contentLength := some ("3".data), body := [91, 49, 93] }

theorem c1_save_success_witness :
    handleRequest goodReq w0 =
      (some { status := 200, headers := [ctHeader],
              body := jdumpC (successObj (episodeFilename w0.now)) },
       { w0 with fs := (episodePath w0.now, jdump2 0 (Json.arr [Json.num 1])) :: w0.fs }) :=
  c1_save_success goodReq w0 ("3".data) 3 ("[1]".data) (Json.arr [Json.num 1])
    rfl rfl rfl rfl rfl rfl rfl

/-- C2: for a successful `POST /save` of payload `P`, the file named by the
response's `file` field exists under the output directory, its text is the
`indent=2` serialisation of `P`, and parsing that text back yields a value
structurally equal to `P` (the `json.loads` / `json.dump` round trip is the
identity on the float-free fragment). -/
theorem c2_roundtrip_file (req : Request) (w : World) (v : Str) (cl : Int)
    (t : Str) (P : Json)
    (hm : req.method = "POST".data) (hp : req.path = "/save".data)
    (hv : req.contentLength = some v) (hcl : pyInt v = some cl)
    (ht : utf8Decode (req.body.take cl.toNat) = some t) (hP : loads t = some P)
    (hwf : w.writeFails = false) :
    (handleRequest req w).1 = some (successResponse (episodeFilename w.now))
    ∧ fsLookup ((handleRequest req w).2).fs (episodePath w.now) = some (jdump2 0 P)
    ∧ loads (jdump2 0 P) = some P := by
  rw [handleRequest_success req w v cl t P hm hp hv hcl ht hP hwf]
  refine ⟨rfl, ?_, loads_jdump2 P⟩
  rw [show ((some (successResponse (episodeFilename w.now)),
      { w with fs := (episodePath w.now, jdump2 0 P) :: w.fs }) : Option Response × World).2.fs =
      (episodePath w.now, jdump2 0 P) :: w.fs from rfl]
  rw [fsLookup, if_pos rfl]

theorem c2_roundtrip_file_witness :
    (handleRequest goodReq w0).1 = some (successResponse (episodeFilename w0.now))
    ∧ fsLookup ((handleRequest goodReq w0).2).fs (episodePath w0.now) =
        some (jdump2 0 (Json.arr [Json.num 1]))
    ∧ loads (jdump2 0 (Json.arr [Json.num 1])) = some (Json.arr [Json.num 1]) :=
  c2_roundtrip_file goodReq w0 ("3".data) 3 ("[1]".data) (Json.arr [Json.num 1])
    rfl rfl rfl rfl rfl rfl rfl

/-- C3: a `POST /save` whose body is not valid UTF-8 or not valid JSON is
answered with HTTP 500 and the JSON body
`{"status": "error", "message": <description>}`, and the world — in
particular the filesystem — is unchanged: the write is attempted only after
parsing succeeds. -/
theorem c3_save_error (req : Request) (w : World) (v : Str) (cl : Int)
    (hm : req.method = "POST".data) (hp : req.path = "/save".data)
    (hv : req.contentLength = some v) (hcl : pyInt v = some cl)
    (hfail : utf8Decode (req.body.take cl.toNat) = none ∨
      ∃ t, utf8Decode (req.body.take cl.toNat) = some t ∧ loads t = none) :
    ∃ m, handleRequest req w =
      (some { status := 500, headers := [], body := jdumpC (errorObj m) }, w) := by
  rcases hfail with hdec | ⟨t, ht, hld⟩
  · refine ⟨msgUnicode, ?_⟩
    simp only [handleRequest, hm, eq_self_iff_true, if_true, do_POST, hp, hv, hcl, hdec]
    rfl
  · refine ⟨msgJson, ?_⟩
    simp only [handleRequest, hm, eq_self_iff_true, if_true, do_POST, hp, hv, hcl, ht, hld]
    rfl

/-- Sample request: `POST /save` whose body `not json` fails JSON parsing. -/
def badReq : Request :=
  { method := "POST".data, path := "/save".data,
    contentLength := some ("8".data),
    body := [110, 111, 116, 32, 106, 115, 111, 110] }

theorem c3_save_error_witness :
    ∃ m, handleRequest badReq w0 =
      (some { status := 500, headers := [], body := jdumpC (errorObj m) }, w0) :=
  c3_save_error badReq w0 ("8".data) 8 rfl rfl rfl rfl
    (Or.inr ⟨"not json".data, rfl, rfl⟩)

/-- Sample request with a method for which `Handler` has no `do_` handler. -/
def putReq : Request :=
  { method := "PUT".data, path := "/x".data, contentLength := none, body := [] }

/-- Sample request: `POST` to a path other than `/save`. -/
def postFooReq : Request :=
  { method := "POST".data, path := "/foo".data, contentLength := none, body := [] }

/-- Sample request: a `GET`. -/
def getReq : Request :=
  { method := "GET".data, path := "/x".data, contentLength := none, body := [] }

/-- C4, refuted: it is not the case that every request that is not a
`POST /save` is answered with 404.  `Handler` subclasses
`SimpleHTTPRequestHandler`, so `GET`/`HEAD` fall to the inherited static
file serving, and a method with no `do_` handler (here `PUT`) is answered
501 by `BaseHTTPRequestHandler.handle_one_request`, not 404. -/
theorem c4_counterexample :
    ¬ (∀ (req : Request) (w : World),
        (req.path ≠ "/save".data ∨ req.method ≠ "POST".data) →
        ((handleRequest req w).1.map Response.status) = some 404) := by
  intro h
  have h2 := h putReq w0 (Or.inr (by decide))
  rw [show ((handleRequest putReq w0).1.map Response.status) = some 501 from rfl] at h2
  exact absurd h2 (by decide)

/-- C4, amended: a `POST` to a path other than `/save` is answered 404 by
the handler's `else` branch; a method other than `POST`, `GET` and `HEAD`
has no `do_` handler and is answered 501; `GET` requests are delegated to
the inherited `SimpleHTTPRequestHandler` file serving (which may answer
200 or 404 depending on the working directory, not uniformly 404). -/
theorem c4_routing (req : Request) (w : World) :
    (req.method = "POST".data → req.path ≠ "/save".data →
      handleRequest req w = (some notFoundResponse, w))
    ∧ (req.method ≠ "POST".data → req.method ≠ "GET".data → req.method ≠ "HEAD".data →
      ((handleRequest req w).1.map Response.status) = some 501)
    ∧ (req.method = "GET".data →
      handleRequest req w = (some (staticServe w req.path), w)) := by
  refine ⟨?_, ?_, ?_⟩
  · intro hm hp
    simp only [handleRequest, hm, eq_self_iff_true, if_true, do_POST, if_neg hp]
  · intro h1 h2 h3
    simp only [handleRequest, if_neg h1, if_neg h2, if_neg h3]
    rfl
  · intro hm
    simp only [handleRequest, hm,
      if_neg (show ¬ (("GET".data : Str) = "POST".data) by decide),
      eq_self_iff_true, if_true]

theorem c4_routing_witness :
    handleRequest postFooReq w0 = (some notFoundResponse, w0)
    ∧ ((handleRequest putReq w0).1.map Response.status) = some 501
    ∧ handleRequest getReq w0 = (some (staticServe w0 getReq.path), w0) :=
  ⟨(c4_routing postFooReq w0).1 rfl (by decide),
   (c4_routing putReq w0).2.1 (by decide) (by decide) (by decide),
   (c4_routing getReq w0).2.2 rfl⟩

/-- C5: the file created by a successful `POST /save` is named exactly
`episode_<t>.json` where `t` is the integer-second timestamp
`int(time.time())` at the time the request is handled (the world's `now`),
and the response body names the same file. -/
theorem c5_filename (req : Request) (w : World) (v : Str) (cl : Int)
    (t : Str) (P : Json)
    (hm : req.method = "POST".data) (hp : req.path = "/save".data)
    (hv : req.contentLength = some v) (hcl : pyInt v = some cl)
    (ht : utf8Decode (req.body.take cl.toNat) = some t) (hP : loads t = some P)
    (hwf : w.writeFails = false) :
    ((handleRequest req w).2).fs =
      (EPISODES_DIR ++ '/' :: ("episode_".data ++ intChars w.now ++ ".json".data),
       jdump2 0 P) :: w.fs
    ∧ (handleRequest req w).1 =
      some (successResponse ("episode_".data ++ intChars w.now ++ ".json".data)) := by
  rw [handleRequest_success req w v cl t P hm hp hv hcl ht hP hwf]
  exact ⟨rfl, rfl⟩

theorem c5_filename_witness :
    ((handleRequest goodReq w0).2).fs =
      (EPISODES_DIR ++ '/' :: ("episode_".data ++ intChars w0.now ++ ".json".data),
       jdump2 0 (Json.arr [Json.num 1])) :: w0.fs
    ∧ (handleRequest goodReq w0).1 =
      some (successResponse ("episode_".data ++ intChars w0.now ++ ".json".data)) :=
  c5_filename goodReq w0 ("3".data) 3 ("[1]".data) (Json.arr [Json.num 1])
    rfl rfl rfl rfl rfl rfl rfl

/-- C6: two sequential successful `POST /save` requests handled within the
same clock second generate the same filename, and afterwards the file holds
only the second payload — the second write overwrites the first. -/
theorem c6_same_second_overwrite (req1 req2 : Request) (w : World)
    (v1 : Str) (cl1 : Int) (t1 : Str) (P1 : Json)
    (v2 : Str) (cl2 : Int) (t2 : Str) (P2 : Json)
    (hm1 : req1.method = "POST".data) (hp1 : req1.path = "/save".data)
    (hv1 : req1.contentLength = some v1) (hcl1 : pyInt v1 = some cl1)
    (ht1 : utf8Decode (req1.body.take cl1.toNat) = some t1) (hP1 : loads t1 = some P1)
    (hm2 : req2.method = "POST".data) (hp2 : req2.path = "/save".data)
    (hv2 : req2.contentLength = some v2) (hcl2 : pyInt v2 = some cl2)
    (ht2 : utf8Decode (req2.body.take cl2.toNat) = some t2) (hP2 : loads t2 = some P2)
    (hwf : w.writeFails = false) :
    (handleRequest req1 w).1 = some (successResponse (episodeFilename w.now))
    ∧ (handleRequest req2 ((handleRequest req1 w).2)).1 =
        some (successResponse (episodeFilename w.now))
    ∧ fsLookup ((handleRequest req2 ((handleRequest req1 w).2)).2).fs
        (episodePath w.now) = some (jdump2 0 P2) := by
  have e1 := handleRequest_success req1 w v1 cl1 t1 P1 hm1 hp1 hv1 hcl1 ht1 hP1 hwf
  have e2 := handleRequest_success req2
    { w with fs := (episodePath w.now, jdump2 0 P1) :: w.fs } v2 cl2 t2 P2
    hm2 hp2 hv2 hcl2 ht2 hP2 hwf
  refine ⟨by rw [e1], ?_, ?_⟩
  · rw [e1]
    show (handleRequest req2
      { w with fs := (episodePath w.now, jdump2 0 P1) :: w.fs }).1 =
      some (successResponse (episodeFilename w.now))
    rw [e2]
  · rw [e1]
    show fsLookup ((handleRequest req2
      { w with fs := (episodePath w.now, jdump2 0 P1) :: w.fs }).2).fs
      (episodePath w.now) = some (jdump2 0 P2)
    rw [e2]
    show fsLookup ((episodePath w.now, jdump2 0 P2) ::
      (episodePath w.now, jdump2 0 P1) :: w.fs) (episodePath w.now) =
      some (jdump2 0 P2)
    rw [fsLookup, if_pos rfl]

/-- Sample request: `POST /save` with body `[2]`. -/
def goodReq2 : Request :=
  { method := "POST".data, path := "/save".data,
    contentLength := some ("3".data), body := [91, 50, 93] }

theorem c6_same_second_overwrite_witness :
    (handleRequest goodReq w0).1 = some (successResponse (episodeFilename w0.now))
    ∧ (handleRequest goodReq2 ((handleRequest goodReq w0).2)).1 =
        some (successResponse (episodeFilename w0.now))
    ∧ fsLookup ((handleRequest goodReq2 ((handleRequest goodReq w0).2)).2).fs
        (episodePath w0.now) = some (jdump2 0 (Json.arr [Json.num 2])) :=
  c6_same_second_overwrite goodReq goodReq2 w0
    ("3".data) 3 ("[1]".data) (Json.arr [Json.num 1])
    ("3".data) 3 ("[2]".data) (Json.arr [Json.num 2])
    rfl rfl rfl rfl rfl rfl rfl rfl rfl rfl rfl rfl rfl

/-- Sample world whose episode directory already holds a file at the path a
same-second `POST` will generate. -/
def oldFileWorld : World :=
  { fs := [(episodePath 5, "old".data)], now := 5, writeFails := false }

/-- C7, refuted: the system does not preserve the contents of every
previously written file.  A later successful `POST` in the same clock
second generates the same `episode_<timestamp>.json` name and its write
replaces the stored contents (the documented same-second collision). -/
theorem c7_counterexample :
    ¬ (∀ (req : Request) (w : World) (f c : Str), fsLookup w.fs f = some c →
        fsLookup ((handleRequest req w).2).fs f = some c) := by
  intro h
  have h2 := h goodReq oldFileWorld (episodePath 5) ("old".data)
    (by rw [show oldFileWorld.fs = [(episodePath 5, "old".data)] from rfl,
      fsLookup, if_pos rfl])
  have e1 := handleRequest_success goodReq oldFileWorld ("3".data) 3 ("[1]".data)
    (Json.arr [Json.num 1]) rfl rfl rfl rfl rfl rfl rfl
  rw [e1] at h2
  rw [show ((some (successResponse (episodeFilename oldFileWorld.now)),
      { oldFileWorld with fs := (episodePath oldFileWorld.now,
        jdump2 0 (Json.arr [Json.num 1])) :: oldFileWorld.fs }) :
      Option Response × World).2.fs =
    (episodePath 5, jdump2 0 (Json.arr [Json.num 1])) :: oldFileWorld.fs from rfl,
    fsLookup, if_pos rfl] at h2
  have : jdump2 0 (Json.arr [Json.num 1]) = "old".data := Option.some.inj h2
  exact absurd this (by decide)

/-- C7, amended: every operation of the system preserves the content of
every stored file except the one whose path is the `episode_<now>.json`
generated for the current second — only a successful `POST /save` touches
the filesystem, and it writes exactly that path (overwriting on a
same-second collision); no file is ever deleted. -/
theorem c7_preservation (req : Request) (w : World) (f : Str)
    (hf : f ≠ episodePath w.now) :
    fsLookup ((handleRequest req w).2).fs f = fsLookup w.fs f := by
  by_cases hm : req.method = "POST".data
  · by_cases hp : req.path = "/save".data
    · cases hv : req.contentLength with
      | none =>
        simp only [handleRequest, hm, eq_self_iff_true, if_true, do_POST, hp, hv]
      | some v =>
        cases hcl : pyInt v with
        | none =>
          simp only [handleRequest, hm, eq_self_iff_true, if_true, do_POST, hp,
            hv, hcl]
        | some n =>
          cases hdec : utf8Decode (req.body.take n.toNat) with
          | none =>
            simp only [handleRequest, hm, eq_self_iff_true, if_true, do_POST, hp,
              hv, hcl, hdec]
          | some t =>
            cases hld : loads t with
            | none =>
              simp only [handleRequest, hm, eq_self_iff_true, if_true, do_POST,
                hp, hv, hcl, hdec, hld]
            | some P =>
              cases hwf : w.writeFails with
              | true =>
                simp only [handleRequest, hm, eq_self_iff_true, if_true, do_POST,
                  hp, hv, hcl, hdec, hld, hwf, if_true]
              | false =>
                simp only [handleRequest, hm, eq_self_iff_true, if_true, do_POST,
                  hp, hv, hcl, hdec, hld, hwf, Bool.false_eq_true, if_false]
                show fsLookup ((episodePath w.now, jdump2 0 P) :: w.fs) f =
                  fsLookup w.fs f
                rw [fsLookup, if_neg (fun hh => hf hh.symm)]
    · simp only [handleRequest, hm, eq_self_iff_true, if_true, do_POST, if_neg hp]
  · rw [handleRequest, if_neg hm]
    by_cases hg : req.method = "GET".data
    · rw [if_pos hg]
    · rw [if_neg hg]
      by_cases hh : req.method = "HEAD".data
      · rw [if_pos hh]
      · rw [if_neg hh]

theorem c7_preservation_witness :
    ("other".data : Str) ≠ episodePath w0.now
    ∧ fsLookup ((handleRequest goodReq w0).2).fs ("other".data) =
        fsLookup w0.fs ("other".data) :=
  ⟨by decide, c7_preservation goodReq w0 ("other".data) (by decide)⟩

/-- C8: no outcome of handling a request stops the serve loop: the server
produces one response slot for every request in sequence, and after any
request — including one answered 500 or one whose handler raised before
responding (`none`) — the remaining requests are still handled.
The loop models `socketserver`: `BaseServer.handle_error` catches handler
exceptions, prints the traceback and keeps serving. -/
theorem c8_serve_continues :
    (∀ (w : World) (reqs : List Request), (serve w reqs).2.length = reqs.length)
    ∧ (∀ (w : World) (r : Request) (rs : List Request),
        (serve w (r :: rs)).2 =
          (handleRequest r w).1 :: (serve ((handleRequest r w).2) rs).2) := by
  constructor
  · intro w reqs
    induction reqs generalizing w with
    | nil => rfl
    | cons r rs ih =>
      simp only [serve, List.length_cons]
      rw [ih]
  · intro w r rs
    simp only [serve]

/-- C9: a `POST /save` that omits the `Content-Length` header, or supplies a
value `int()` cannot parse, raises before the `try` block and the handler
sends no HTTP response at all — in particular not the 500 JSON error body —
and the filesystem is untouched. -/
theorem c9_missing_content_length (req : Request) (w : World)
    (hm : req.method = "POST".data) (hp : req.path = "/save".data)
    (hcl : req.contentLength = none ∨
      ∃ v, req.contentLength = some v ∧ pyInt v = none) :
    handleRequest req w = (none, w) := by
  rcases hcl with hnone | ⟨v, hv, hbad⟩
  · simp only [handleRequest, hm, eq_self_iff_true, if_true, do_POST, hp, hnone]
  · simp only [handleRequest, hm, eq_self_iff_true, if_true, do_POST, hp, hv, hbad]

/-- Sample request: `POST /save` without a `Content-Length` header. -/
def noLenReq : Request :=
  { method := "POST".data, path := "/save".data, contentLength := none,
    body := [91, 49, 93] }

theorem c9_missing_content_length_witness :
    handleRequest noLenReq w0 = (none, w0) :=
  c9_missing_content_length noLenReq w0 rfl rfl (Or.inl rfl)

/-- C10: every 500 response of `do_POST` (parse failure or write failure)
carries the JSON error body but sends no header at all — in particular no
`Content-type` — since `send_header` is called only in the success
branch. -/
theorem c10_error_headers (req : Request) (w : World) (r : Response) (w2 : World)
    (hdo : do_POST req w = (some r, w2)) (h500 : r.status = 500) :
    r.headers = [] ∧ ∃ m, r.body = jdumpC (errorObj m) := by
  by_cases hp : req.path = "/save".data
  · rw [do_POST, if_pos hp] at hdo
    cases hv : req.contentLength with
    | none =>
      simp only [hv] at hdo
      exact absurd (congrArg Prod.fst hdo) (by simp)
    | some v =>
      cases hcl : pyInt v with
      | none =>
        simp only [hv, hcl] at hdo
        exact absurd (congrArg Prod.fst hdo) (by simp)
      | some n =>
        cases hdec : utf8Decode (req.body.take n.toNat) with
        | none =>
          simp only [hv, hcl, hdec] at hdo
          have hr : errResponse msgUnicode = r := Option.some.inj (congrArg Prod.fst hdo)
          rw [← hr]
          exact ⟨rfl, msgUnicode, rfl⟩
        | some t =>
          cases hld : loads t with
          | none =>
            simp only [hv, hcl, hdec, hld] at hdo
            have hr : errResponse msgJson = r := Option.some.inj (congrArg Prod.fst hdo)
            rw [← hr]
            exact ⟨rfl, msgJson, rfl⟩
          | some P =>
            cases hwf : w.writeFails with
            | true =>
              simp only [hv, hcl, hdec, hld, hwf, if_true] at hdo
              have hr : errResponse msgWrite = r := Option.some.inj (congrArg Prod.fst hdo)
              rw [← hr]
              exact ⟨rfl, msgWrite, rfl⟩
            | false =>
              simp only [hv, hcl, hdec, hld, hwf, Bool.false_eq_true, if_false] at hdo
              have hr : successResponse (episodeFilename w.now) = r :=
                Option.some.inj (congrArg Prod.fst hdo)
              rw [← hr] at h500
              rw [show (successResponse (episodeFilename w.now)).status = 200
                from rfl] at h500
              exact absurd h500 (by decide)
  · rw [do_POST, if_neg hp] at hdo
    have hr : notFoundResponse = r := Option.some.inj (congrArg Prod.fst hdo)
    rw [← hr] at h500
    exact absurd h500 (by decide)

theorem c10_error_headers_witness :
    (errResponse msgJson).headers = []
    ∧ ∃ m, (errResponse msgJson).body = jdumpC (errorObj m) :=
  c10_error_headers badReq w0 (errResponse msgJson) w0 rfl rfl
